import Mathlib

/-!
Verification of the Personal Finance Tracker backend (`main.py`, `schemas.py`).

The Python handlers are shallowly embedded: MongoDB collections become Lean
lists of documents (in insertion order), floats become rationals, `datetime`
values become a record of year/month/day plus a seconds-within-day field
ordered lexicographically, and raised exceptions become `Option.none`.
-/

/-- Embedding of Python `datetime`: year, month, day, and time-of-day
(seconds within the day). Comparison is lexicographic, as for `datetime`. -/
structure DateTime where
  year : Nat
  month : Nat
  day : Nat
  time : Nat
deriving DecidableEq

/-- `datetime` comparison `a <= b` (lexicographic on the components). -/
def dtLE (a b : DateTime) : Bool :=
  a.year.blt b.year ||
    (a.year.beq b.year && (a.month.blt b.month ||
      (a.month.beq b.month && (a.day.blt b.day ||
        (a.day.beq b.day && a.time.ble b.time)))))

/-- `datetime` comparison `a < b` (lexicographic on the components). -/
def dtLT (a b : DateTime) : Bool :=
  a.year.blt b.year ||
    (a.year.beq b.year && (a.month.blt b.month ||
      (a.month.beq b.month && (a.day.blt b.day ||
        (a.day.beq b.day && a.time.blt b.time)))))

/-- Zero-padded decimal rendering, as in Python `f"{n:0Nd}"`. -/
def padNum (w : Nat) (n : Nat) : List Char :=
  let s := (toString n).data
  List.replicate (w - s.length) '0' ++ s

/-- The month key `f"{now.year:04d}-{now.month:02d}"` built from a datetime. -/
def fmtMonth (d : DateTime) : String :=
  ⟨padNum 4 d.year ++ '-' :: padNum 2 d.month⟩

/-- ASCII decimal digit value of a character, if it is a digit. -/
def digitVal (c : Char) : Option Nat :=
  if c = '0' then some 0 else if c = '1' then some 1 else if c = '2' then some 2
  else if c = '3' then some 3 else if c = '4' then some 4 else if c = '5' then some 5
  else if c = '6' then some 6 else if c = '7' then some 7 else if c = '8' then some 8
  else if c = '9' then some 9 else none

/-- CPython `strptime` directive `%Y`: the regex is exactly four digits,
`\d\d\d\d`. -/
def matchYear (cs : List Char) : Option (Nat × List Char) :=
  match cs with
  | c1 :: c2 :: c3 :: c4 :: rest =>
    match digitVal c1, digitVal c2, digitVal c3, digitVal c4 with
    | some d1, some d2, some d3, some d4 =>
      some (((d1 * 10 + d2) * 10 + d3) * 10 + d4, rest)
    | _, _, _, _ => none
  | _ => none

/-- CPython `strptime` directive `%m`: the regex `1[0-2]|0[1-9]|[1-9]`,
alternatives tried left to right. -/
def matchMonth (cs : List Char) : Option (Nat × List Char) :=
  match cs with
  | [] => none
  | c :: rest =>
    match digitVal c with
    | none => none
    | some d1 =>
      match rest with
      | [] => if 1 ≤ d1 then some (d1, []) else none
      | c2 :: rest2 =>
        match digitVal c2 with
        | none => if 1 ≤ d1 then some (d1, rest) else none
        | some d2 =>
          if d1 = 1 && d2 ≤ 2 then some (10 + d2, rest2)
          else if d1 = 0 && 1 ≤ d2 then some (d2, rest2)
          else if 1 ≤ d1 then some (d1, rest)
          else none

/-- CPython `strptime` directive `%d`: the regex
`3[01]|[12]\d|0[1-9]|[1-9]| [1-9]` (the last alternative is a space followed
by a nonzero digit), alternatives tried left to right. -/
def matchDay (cs : List Char) : Option (Nat × List Char) :=
  match cs with
  | [] => none
  | c :: rest =>
    match digitVal c with
    | none =>
      if c = ' ' then
        match rest with
        | [] => none
        | c2 :: rest2 =>
          match digitVal c2 with
          | none => none
          | some d2 => if 1 ≤ d2 then some (d2, rest2) else none
      else none
    | some d1 =>
      match rest with
      | [] => if 1 ≤ d1 then some (d1, []) else none
      | c2 :: rest2 =>
        match digitVal c2 with
        | none => if 1 ≤ d1 then some (d1, rest) else none
        | some d2 =>
          if d1 = 3 && d2 ≤ 1 then some (30 + d2, rest2)
          else if d1 = 1 || d1 = 2 then some (10 * d1 + d2, rest2)
          else if d1 = 0 && 1 ≤ d2 then some (d2, rest2)
          else if 1 ≤ d1 then some (d1, rest)
          else none

/-- Gregorian leap-year test, as in Python `datetime`. -/
def isLeap (y : Nat) : Bool :=
  y % 4 == 0 && (!(y % 100 == 0) || y % 400 == 0)

/-- Days in a month, as validated by the Python `datetime` constructor. -/
def daysInMonth (y m : Nat) : Nat :=
  if m = 2 then (if isLeap y then 29 else 28)
  else if m = 4 || m = 6 || m = 9 || m = 11 then 30
  else 31

/-- `datetime.strptime(s, "%Y-%m-%d")`: regex match of the three directives with
literal dashes, rejection of unconverted trailing data, then `date` construction
(which checks `1 <= year` and the day against the month length). The result has
time-of-day zero. Failure (a raised `ValueError`) is `none`. -/
def strptimeYMD (s : String) : Option DateTime :=
  match matchYear s.data with
  | none => none
  | some (y, r1) =>
    match r1 with
    | '-' :: r2 =>
      match matchMonth r2 with
      | none => none
      | some (mo, r3) =>
        match r3 with
        | '-' :: r4 =>
          match matchDay r4 with
          | none => none
          | some (d, r5) =>
            if r5 = [] then
              if 1 ≤ y && d ≤ daysInMonth y mo then some ⟨y, mo, d, 0⟩ else none
            else none
        | _ => none
    | _ => none

/-- A document of the `transaction` collection (the `Transaction` schema). -/
structure Tx where
  title : String
  amount : ℚ
  type : String
  category : String
  date : DateTime
  notes : Option String
deriving DecidableEq

/-- A document of the `budget` collection. `updatedAt` is optional because only
the upsert writes set it (`Budget` model inserts do not). -/
structure BudgetDoc where
  month : String
  amount : ℚ
  updatedAt : Option DateTime
deriving DecidableEq

/-- A document of the `profile` collection; every field is optional because an
upsert with an empty filter creates a document holding only the set fields. -/
structure ProfileDoc where
  name : Option String
  currency : Option String
  dark_mode : Option Bool
  categories : Option (List String)
  onboarded : Option Bool
deriving DecidableEq

/-- The `ProfileUpdate` request body: present fields are `some`. -/
structure ProfilePayload where
  name : Option String
  currency : Option String
  dark_mode : Option Bool
  categories : Option (List String)
  onboarded : Option Bool
deriving DecidableEq

/-- Python `round` to an integer: round half to even. -/
def pyRoundInt (q : ℚ) : ℤ :=
  let f := ⌊q⌋
  let r := q - f
  if r < 1 / 2 then f
  else if 1 / 2 < r then f + 1
  else if f % 2 = 0 then f else f + 1

/-- Python `round(x, 2)`. -/
def round2 (q : ℚ) : ℚ := (pyRoundInt (q * 100) : ℚ) / 100

/-- `sum(t["amount"] for t in txs if t["type"] == "income")`. -/
def incomeOf (txs : List Tx) : ℚ :=
  ((txs.filter fun t => t.type == "income").map fun t => t.amount).sum

/-- `sum(t["amount"] for t in txs if t["type"] == "expense")`. -/
def expenseOf (txs : List Tx) : ℚ :=
  ((txs.filter fun t => t.type == "expense").map fun t => t.amount).sum

/-- The month key actually used: the argument unless it is absent or empty
(Python `if not month:`), in which case the current UTC year-month. -/
def monthKeyOf (m : Option String) (now : DateTime) : String :=
  match m with
  | none => fmtMonth now
  | some s => if s = "" then fmtMonth now else s

/-- First day of the next month: `datetime(y+1, 1, 1)` when `month == 12`,
else `datetime(y, month+1, 1)`. -/
def monthEndOf (start : DateTime) : DateTime :=
  if start.month = 12 then ⟨start.year + 1, 1, 1, 0⟩ else ⟨start.year, start.month + 1, 1, 0⟩

/-- The store query `{"date": {"$gte": start, "$lt": end}}` on transactions. -/
def monthTxsOf (txs : List Tx) (s e : DateTime) : List Tx :=
  txs.filter fun t => dtLE s t.date && dtLT t.date e

/-- `month_spend`: expense amounts of the month's transactions, summed. -/
def monthSpendRaw (txs : List Tx) (s e : DateTime) : ℚ :=
  (((monthTxsOf txs s e).filter fun t => t.type == "expense").map fun t => t.amount).sum

/-- `db["budget"].find_one({"month": m})`: first budget document whose month
field equals `m`, in insertion order. -/
def budgetFind (budgets : List BudgetDoc) (m : String) : Option BudgetDoc :=
  budgets.find? fun b => b.month == m

/-- The unrounded month spend determined by a month key: what `get_summary`
computes for that key (zero if the key does not parse). -/
def monthSpendKey (txs : List Tx) (key : String) : ℚ :=
  match strptimeYMD (key ++ "-01") with
  | some start => monthSpendRaw txs start (monthEndOf start)
  | none => 0

/-- `budget_amount = bud_doc.get("amount", 0) if bud_doc else 0`. -/
def budgetAmt (budgets : List BudgetDoc) (m : String) : ℚ :=
  match budgetFind budgets m with
  | some b => b.amount
  | none => 0

/-- `prof.get("currency", "$")` over `find_one({}) or {}`. -/
def currencyOf (profiles : List ProfileDoc) : String :=
  match profiles.head? with
  | some p => p.currency.getD "$"
  | none => "$"

/-- Date-descending ordering on transactions (Mongo `sort("date", -1)`). -/
def txGe (a b : Tx) : Prop := dtLE b.date a.date = true

instance : DecidableRel txGe := fun a b => Bool.decEq (dtLE b.date a.date) true

instance : IsTotal Tx txGe :=
  ⟨fun a b => by
    simp only [txGe, dtLE, Bool.or_eq_true, Bool.and_eq_true, Nat.blt_eq, Nat.beq_eq,
      Nat.ble_eq]
    omega⟩

instance : IsTrans Tx txGe :=
  ⟨fun a b c hab hbc => by
    simp only [txGe, dtLE, Bool.or_eq_true, Bool.and_eq_true, Nat.blt_eq, Nat.beq_eq,
      Nat.ble_eq] at *
    omega⟩

/-- `find().sort("date", -1)`: stable sort by date descending. -/
def sortDesc (txs : List Tx) : List Tx := List.insertionSort txGe txs

/-- The `/summary` response body. -/
structure SummaryResult where
  balance : ℚ
  income : ℚ
  expense : ℚ
  month : String
  month_spend : ℚ
  budget : ℚ
  progress : ℚ
  currency : String
  recent : List Tx
deriving DecidableEq

/-- The `get_summary` handler. Collections are lists in insertion order; the
unhandled `ValueError` of `strptime` on a bad month key is `none`. -/
def get_summary (txs : List Tx) (budgets : List BudgetDoc) (profiles : List ProfileDoc)
    (monthArg : Option String) (now : DateTime) : Option SummaryResult :=
  let income := incomeOf txs
  let expense := expenseOf txs
  let balance := income - expense
  let month := monthKeyOf monthArg now
  match strptimeYMD (month ++ "-01") with
  | none => none
  | some start =>
    let month_spend := monthSpendRaw txs start (monthEndOf start)
    let budget_amount := budgetAmt budgets month
    let progress := if budget_amount ≠ 0 then month_spend / budget_amount else 0
    some { balance := round2 balance, income := round2 income, expense := round2 expense,
           month := month, month_spend := round2 month_spend, budget := budget_amount,
           progress := progress, currency := currencyOf profiles,
           recent := (sortDesc txs).take 10 }

/-- The query document built by `list_transactions`. -/
structure TxQuery where
  dateGte : Option DateTime
  dateLt : Option DateTime
  category : Option String
  type : Option String
  amountGte : Option ℚ
  amountLte : Option ℚ
deriving DecidableEq

/-- Store-side `$gte` on a date field (absent bound matches everything). -/
def qGe (g : Option DateTime) (t : Tx) : Bool :=
  match g with
  | some d => dtLE d t.date
  | none => true

/-- Store-side `$lt` on a date field (absent bound matches everything). -/
def qLt (g : Option DateTime) (t : Tx) : Bool :=
  match g with
  | some d => dtLT t.date d
  | none => true

/-- Store-side equality on a string field (absent bound matches everything). -/
def qStr (o : Option String) (v : String) : Bool :=
  match o with
  | some c => v == c
  | none => true

/-- Store-side `$gte` on the amount (absent bound matches everything). -/
def qGeQ (o : Option ℚ) (a : ℚ) : Bool :=
  match o with
  | some b => decide (b ≤ a)
  | none => true

/-- Store-side `$lte` on the amount (absent bound matches everything). -/
def qLeQ (o : Option ℚ) (a : ℚ) : Bool :=
  match o with
  | some b => decide (a ≤ b)
  | none => true

/-- Store-side evaluation of the query document against one transaction. -/
def TxQuery.matchesTx (q : TxQuery) (t : Tx) : Bool :=
  qGe q.dateGte t && qLt q.dateLt t && qStr q.category t.category &&
  qStr q.type t.type && qGeQ q.amountGte t.amount && qLeQ q.amountLte t.amount

/-- Python truthiness of an optional string: present and non-empty. -/
def truthy (o : Option String) : Bool :=
  match o with
  | some s => !(s == "")
  | none => false

/-- One date bound of the query: skipped when the parameter is absent or empty
(Python `if start_date:`), otherwise parsed with `strptime`; a parse failure is
the raised `ValueError` (`none`). -/
def parseOptDate (o : Option String) : Option (Option DateTime) :=
  if truthy o then
    match strptimeYMD (o.getD "") with
    | some d => some (some d)
    | none => none
  else some none

/-- The query-construction part of `list_transactions`: each `if <param>:`
guard, with `strptime` on the date bounds; a parse failure is `none`. -/
def buildQuery (sd ed cat ty : Option String) (mn mx : Option ℚ) : Option TxQuery :=
  match parseOptDate sd, parseOptDate ed with
  | some g, some l =>
    some { dateGte := g, dateLt := l,
           category := if truthy cat then cat else none,
           type := if truthy ty then ty else none,
           amountGte := mn, amountLte := mx }
  | _, _ => none

/-- PyMongo cursor `limit(n)`: `0` means no limit at all; a nonzero limit caps
the result at `|n|` documents (a negative value returns a single batch of at
most `|n|` and closes the cursor). -/
def mongoLimit (n : Int) (l : List Tx) : List Tx :=
  if n = 0 then l else l.take n.natAbs

/-- The `list_transactions` handler: build the query, filter the collection,
sort by date descending, apply the limit (a Python `int`, default 100). -/
def list_transactions (txs : List Tx) (sd ed cat ty : Option String) (mn mx : Option ℚ)
    (limit : Int) : Option (List Tx) :=
  match buildQuery sd ed cat ty mn mx with
  | none => none
  | some q => some (mongoLimit limit (sortDesc (txs.filter q.matchesTx)))

/-- `DEFAULT_CATEGORIES` of `schemas.py`, also the values of `CategoryLiteral`. -/
def DEFAULT_CATEGORIES : List String :=
  ["Food", "Bills", "Transport", "Shopping", "Savings", "Other"]

/-- Pydantic validation of `Transaction.category : CategoryLiteral`. -/
def validCategory (c : String) : Bool := DEFAULT_CATEGORIES.contains c

/-- Pydantic validation of `Transaction.type : TypeLiteral`. -/
def validType (t : String) : Bool := t == "income" || t == "expense"

/-- Constructing a `Transaction` model value: pydantic checks `amount > 0` and
the two literal enums; a failed check raises a validation error (`none`). -/
def mkTransaction (title : String) (amount : ℚ) (ty cat : String) (date : DateTime)
    (notes : Option String) : Option Tx :=
  if decide (0 < amount) && validType ty && validCategory cat then
    some ⟨title, amount, ty, cat, date, notes⟩
  else none

/-- The `add_transaction` handler: validates through the `Transaction` model and
returns the stored document, or `none` on a validation error. -/
def add_transaction (title : String) (amount : ℚ) (ty cat : String)
    (date : Option DateTime) (notes : Option String) (now : DateTime) : Option Tx :=
  mkTransaction title amount ty cat (date.getD now) notes

/-- Constructing a `Budget` model value (`schemas.py`): pydantic checks
`amount > 0`. -/
def mkBudget (month : String) (amount : ℚ) : Option BudgetDoc :=
  if decide (0 < amount) then some ⟨month, amount, none⟩ else none

/-- `db["budget"].update_one({"month": m}, {"$set": {month, amount, updated_at}},
upsert=True)`: replace the fields of the first document whose month equals `m`,
or append a new document built from the set fields. -/
def upsertBudget : List BudgetDoc → String → ℚ → DateTime → List BudgetDoc
  | [], m, a, now => [⟨m, a, some now⟩]
  | b :: bs, m, a, now =>
    if b.month = m then ⟨m, a, some now⟩ :: bs else b :: upsertBudget bs m a now

/-- The `set_budget` handler: the month defaults to the current UTC year-month
when absent or empty, then the budget document is upserted. No validation of
`amount` happens (`BudgetSet` declares a bare `float`). -/
def set_budget (budgets : List BudgetDoc) (monthArg : Option String) (amount : ℚ)
    (now : DateTime) : List BudgetDoc × String :=
  (upsertBudget budgets (monthKeyOf monthArg now) amount now, "ok")

/-- `$set` of the provided payload fields on an existing profile document. -/
def applyProfileSet (d : ProfileDoc) (p : ProfilePayload) : ProfileDoc :=
  { name := p.name.or d.name, currency := p.currency.or d.currency,
    dark_mode := p.dark_mode.or d.dark_mode, categories := p.categories.or d.categories,
    onboarded := p.onboarded.or d.onboarded }

/-- The document created by an upsert with empty filter: just the set fields. -/
def profileDocOfPayload (p : ProfilePayload) : ProfileDoc :=
  ⟨p.name, p.currency, p.dark_mode, p.categories, p.onboarded⟩

/-- `db["profile"].update_one({}, {"$set": update}, upsert=True)`: the empty
filter matches the first document; if none exists the set fields are inserted. -/
def upsertProfile (store : List ProfileDoc) (p : ProfilePayload) : List ProfileDoc :=
  match store with
  | [] => [profileDocOfPayload p]
  | d :: rest => applyProfileSet d p :: rest

/-- `model_dump(exclude_none=True)` is non-empty: some field was provided. -/
def payloadProvided (p : ProfilePayload) : Bool :=
  p.name.isSome || p.currency.isSome || p.dark_mode.isSome || p.categories.isSome ||
    p.onboarded.isSome

/-- The `update_profile` handler: `if not update: return {"status": "noop"}`,
else upsert the provided fields and return `"ok"`. -/
def update_profile (store : List ProfileDoc) (p : ProfilePayload) : List ProfileDoc × String :=
  if payloadProvided p then (upsertProfile store p, "ok") else (store, "noop")

/-- The `complete_onboarding` handler: `$set` currency and `onboarded=True` on
the profile (categories only when a non-empty list is supplied), then upsert the
current month's budget to the target amount. -/
def complete_onboarding (profiles : List ProfileDoc) (budgets : List BudgetDoc)
    (currency : String) (target : ℚ) (cats : Option (List String)) (now : DateTime) :
    List ProfileDoc × List BudgetDoc × String :=
  let p : ProfilePayload :=
    { name := none, currency := some currency, dark_mode := none,
      categories := match cats with
        | some l => if l = [] then none else some l
        | none => none,
      onboarded := some true }
  (upsertProfile profiles p, upsertBudget budgets (fmtMonth now) target now, "ok")

/-- Modelled from the spec words for the refinement check of the month format:
a strictly formatted month key is exactly a four-digit year, a dash, and a
two-digit month `01`..`12`. -/
def strictMonthFormat (s : String) : Bool :=
  match s.data with
  | [a, b, c, d, dash, e, f] =>
    (digitVal a).isSome && (digitVal b).isSome && (digitVal c).isSome &&
    (digitVal d).isSome && (dash == '-') && (digitVal e).isSome && (digitVal f).isSome &&
    decide (1 ≤ 10 * (digitVal e).getD 0 + (digitVal f).getD 0) &&
    decide (10 * (digitVal e).getD 0 + (digitVal f).getD 0 ≤ 12)
  | _ => false

/-- Spec-side start-date bound: constrains only when supplied non-empty. -/
def effStart (sd : Option String) (t : Tx) : Bool :=
  match sd with
  | some s =>
    if s = "" then true else
      match strptimeYMD s with
      | some d => dtLE d t.date
      | none => false
  | none => true

/-- Spec-side end-date bound: constrains only when supplied non-empty. -/
def effEnd (ed : Option String) (t : Tx) : Bool :=
  match ed with
  | some s =>
    if s = "" then true else
      match strptimeYMD s with
      | some d => dtLT t.date d
      | none => false
  | none => true

/-- Spec-side string equality filter: constrains only when supplied non-empty. -/
def effStr (o : Option String) (v : String) : Bool :=
  match o with
  | some c => if c = "" then true else v == c
  | none => true

/-- The amended filter semantics of `list_transactions`, written from the spec
side for comparison: `startDate`, `endDate`, `category` and `type` constrain
only when supplied non-empty; the amount bounds constrain whenever supplied. -/
def effMatch (sd ed cat ty : Option String) (mn mx : Option ℚ) (t : Tx) : Bool :=
  effStart sd t && effEnd ed t && effStr cat t.category && effStr ty t.type &&
  (match mn with | some a => decide (a ≤ t.amount) | none => true) &&
  (match mx with | some a => decide (t.amount ≤ a) | none => true)

/-- Fixture: a reference instant (2024-05-15 UTC). -/
def now0 : DateTime := ⟨2024, 5, 15, 0⟩

/-- Fixture: an expense transaction in May 2024. -/
def txFood : Tx := ⟨"Groceries", 85 / 2, "expense", "Food", ⟨2024, 5, 3, 0⟩, none⟩

/-- Fixture: an income transaction in May 2024. -/
def txSalary : Tx := ⟨"Salary", 1800, "income", "Other", ⟨2024, 5, 10, 0⟩, none⟩

/-- Fixture: an expense transaction on the first day of June 2024. -/
def txMetro : Tx := ⟨"Metro", 16 / 5, "expense", "Transport", ⟨2024, 6, 1, 0⟩, none⟩

/-- Fixture: a budget document for May 2024. -/
def bud0 : BudgetDoc := ⟨"2024-05", 1200, none⟩

/-- Fixture: a profile document whose configured categories are not the
default literal set. -/
def profGroceries : ProfileDoc :=
  ⟨some "You", some "$", some false, some ["Groceries"], some false⟩

/-- Fixture: a fully populated profile document. -/
def prof0 : ProfileDoc := ⟨some "You", some "$", some false, none, some false⟩

/-- Fixture: a profile update payload providing only the currency. -/
def payCurrency : ProfilePayload := ⟨none, some "€", none, none, none⟩

/-- Fixture: the empty profile update payload. -/
def payEmpty : ProfilePayload := ⟨none, none, none, none, none⟩

/-- Fixture: an expense transaction with integer amount in May 2024. -/
def txRent : Tx := ⟨"Rent", 42, "expense", "Bills", ⟨2024, 5, 3, 0⟩, none⟩

/-- Fixture: the summary for no transactions, `[bud0]`, month `2024-05`. -/
def sumResB : SummaryResult :=
  { balance := 0, income := 0, expense := 0, month := "2024-05", month_spend := 0,
    budget := 1200, progress := 0, currency := "$", recent := [] }

/-- Fixture: a budget document whose amount is not a two-decimal value. -/
def budThird : BudgetDoc := ⟨"2024-05", 100 / 3, none⟩

/-- Fixture: the summary for no transactions, `[budThird]`, month `2024-05`. -/
def sumResT : SummaryResult :=
  { balance := 0, income := 0, expense := 0, month := "2024-05", month_spend := 0,
    budget := 100 / 3, progress := 0, currency := "$", recent := [] }

/-- Fixture: the summary for `[txRent]`, no budgets, month `2024-05`. -/
def sumRes42 : SummaryResult :=
  { balance := -42, income := 0, expense := 42, month := "2024-05", month_spend := 42,
    budget := 0, progress := 0, currency := "$", recent := [txRent] }

/-- Fixture: the summary for empty stores and month `2024-05`. -/
def sumResE : SummaryResult :=
  { balance := 0, income := 0, expense := 0, month := "2024-05",
    month_spend := 0, budget := 0, progress := 0, currency := "$", recent := [] }

/-- Fixture: the query document for amount bounds 10..50 and no other filter. -/
def q0 : TxQuery := ⟨none, none, none, none, some 10, some 50⟩

/-- Fixture: the unconstrained query document. -/
def qAll : TxQuery := ⟨none, none, none, none, none, none⟩

/-! ## Helper lemmas -/

theorem dtLE_trans {a b c : DateTime} (hab : dtLE a b = true) (hbc : dtLE b c = true) :
    dtLE a c = true := by
  simp only [dtLE, Bool.or_eq_true, Bool.and_eq_true, Nat.blt_eq, Nat.beq_eq,
    Nat.ble_eq] at *
  omega

theorem dtLT_iff_not_ge {a b : DateTime} : dtLT a b = true ↔ ¬ dtLE b a = true := by
  simp only [dtLT, dtLE, Bool.or_eq_true, Bool.and_eq_true, Nat.blt_eq, Nat.beq_eq,
    Nat.ble_eq]
  omega

/-! ## C1 -/

/-- C1: the claim says a `setBudget` call with non-positive `amount` (boundary
`amount = 0`) is rejected by validation before any write. The code instead
performs the upsert and answers `"ok"`: `BudgetSet` carries a bare `float`,
bypassing the `Budget` model whose `amount` field is declared `gt=0` (as
`mkBudget` shows, that model rejects `0`). The write happens. -/
theorem set_budget_accepts_zero_amount_bug :
    set_budget [] (some "2024-05") 0 now0 = ([⟨"2024-05", 0, some now0⟩], "ok") ∧
    mkBudget "2024-05" 0 = none := by
  constructor
  · rfl
  · rfl

/-! ## C9 -/

/-- C9: `update_profile` merges only the explicitly provided fields into the
profile document, every omitted field keeps its prior value, and the empty
payload performs no write and reports the distinct status `"noop"`. -/
theorem update_profile_partial_merge (store : List ProfileDoc) (p : ProfilePayload) :
    ("noop" : String) ≠ "ok" ∧
    (payloadProvided p = false → update_profile store p = (store, "noop")) ∧
    (payloadProvided p = true →
      (update_profile store p).2 = "ok" ∧
      ∀ d rest, store = d :: rest →
        (update_profile store p).1 = applyProfileSet d p :: rest ∧
        (p.name = none → (applyProfileSet d p).name = d.name) ∧
        (p.currency = none → (applyProfileSet d p).currency = d.currency) ∧
        (p.dark_mode = none → (applyProfileSet d p).dark_mode = d.dark_mode) ∧
        (p.categories = none → (applyProfileSet d p).categories = d.categories) ∧
        (p.onboarded = none → (applyProfileSet d p).onboarded = d.onboarded) ∧
        (∀ v, p.name = some v → (applyProfileSet d p).name = some v) ∧
        (∀ v, p.currency = some v → (applyProfileSet d p).currency = some v) ∧
        (∀ v, p.dark_mode = some v → (applyProfileSet d p).dark_mode = some v) ∧
        (∀ v, p.categories = some v → (applyProfileSet d p).categories = some v) ∧
        (∀ v, p.onboarded = some v → (applyProfileSet d p).onboarded = some v)) := by
  refine ⟨by decide, fun hf => ?_, fun ht => ?_⟩
  · simp [update_profile, hf]
  · refine ⟨by simp [update_profile, ht], fun d rest hstore => ?_⟩
    subst hstore
    refine ⟨by simp [update_profile, ht, upsertProfile], ?_, ?_, ?_, ?_, ?_, ?_, ?_, ?_, ?_, ?_⟩ <;>
      first
        | (intro hnone; simp [applyProfileSet, hnone])
        | (intro v hv; simp [applyProfileSet, hv])

/-- Witness for C9 at a concrete store and payloads. -/
theorem update_profile_partial_merge_witness :
    update_profile [prof0] payEmpty = ([prof0], "noop") ∧
    (update_profile [prof0] payCurrency).2 = "ok" ∧
    (update_profile [prof0] payCurrency).1 = [applyProfileSet prof0 payCurrency] ∧
    (applyProfileSet prof0 payCurrency).currency = some "€" ∧
    (applyProfileSet prof0 payCurrency).name = prof0.name := by
  have he := (update_profile_partial_merge [prof0] payEmpty).2.1 (by decide)
  have hp := (update_profile_partial_merge [prof0] payCurrency).2.2 (by decide)
  have hd := hp.2 prof0 [] rfl
  exact ⟨he, hp.1, hd.1, hd.2.2.2.2.2.2.2.1 "€" rfl, hd.2.1 rfl⟩

/-! ## C10 -/

/-- C10 counterexample: with the configured profile categories `["Groceries"]`,
a create-transaction request with category `"Groceries"` (a member of the
configured set) is rejected, while `"Food"` (not a member) is accepted: the
accepted set is the fixed `CategoryLiteral` set, not `Profile.categories`. -/
theorem add_transaction_category_cex :
    profGroceries.categories = some ["Groceries"] ∧
    "Groceries" ∈ ["Groceries"] ∧
    add_transaction "Coffee" 5 "expense" "Groceries" none none now0 = none ∧
    "Food" ∉ ["Groceries"] ∧
    (add_transaction "Coffee" 5 "expense" "Food" none none now0).isSome = true := by
  refine ⟨rfl, by decide, by decide, by decide, by decide⟩

/-- C10 amended: for a create-transaction request with positive amount and a
valid type, the accepted category values are exactly the members of the fixed
literal set `DEFAULT_CATEGORIES`, independent of any profile state. -/
theorem add_transaction_fixed_categories (title : String) (amount : ℚ) (ty cat : String)
    (date : Option DateTime) (notes : Option String) (now : DateTime)
    (hamt : 0 < amount) (hty : validType ty = true) :
    ((add_transaction title amount ty cat date notes now).isSome ↔ cat ∈ DEFAULT_CATEGORIES) := by
  unfold add_transaction mkTransaction
  by_cases hc : validCategory cat = true
  · have hmem : cat ∈ DEFAULT_CATEGORIES := by
      simpa [validCategory, List.contains_iff_exists_mem_beq] using hc
    simp [hamt, hty, hc, hmem]
  · have hmem : cat ∉ DEFAULT_CATEGORIES := by
      intro hm
      exact hc (by simp [validCategory, List.contains_iff_exists_mem_beq, hm])
    simp [hc, hmem]

/-- Witness for C10 at a concrete accepted request. -/
theorem add_transaction_fixed_categories_witness :
    (0 : ℚ) < 5 ∧ validType "expense" = true ∧
    ((add_transaction "Coffee" 5 "expense" "Food" none none now0).isSome ↔
      "Food" ∈ DEFAULT_CATEGORIES) := by
  exact ⟨by norm_num, by decide,
    add_transaction_fixed_categories "Coffee" 5 "expense" "Food" none none now0
      (by norm_num) (by decide)⟩

/-! ## C8 -/

theorem budgetFind_upsert_self (bs : List BudgetDoc) (m : String) (a : ℚ) (now : DateTime) :
    budgetFind (upsertBudget bs m a now) m = some ⟨m, a, some now⟩ := by
  induction bs with
  | nil => simp [upsertBudget, budgetFind]
  | cons b bs ih =>
    by_cases h : b.month = m
    · simp [upsertBudget, h, budgetFind]
    · have hb : (b.month == m) = false := by simpa using h
      simp only [upsertBudget, if_neg h, budgetFind, List.find?_cons, hb]
      exact ih

theorem upsertBudget_months (bs : List BudgetDoc) (m : String) (a : ℚ) (now : DateTime) :
    (upsertBudget bs m a now).map BudgetDoc.month =
      if bs.any (fun b => b.month == m) then bs.map BudgetDoc.month
      else bs.map BudgetDoc.month ++ [m] := by
  induction bs with
  | nil => simp [upsertBudget]
  | cons b bs ih =>
    by_cases h : b.month = m
    · simp [upsertBudget, h]
    · have hb : (b.month == m) = false := by simpa using h
      by_cases hany : (bs.any fun x => x.month == m) = true
      · simp [upsertBudget, h, hb, ih, hany]
      · have hf : (bs.any fun x => x.month == m) = false := by simpa using hany
        simp [upsertBudget, h, hb, ih, hf]

theorem upsertBudget_nodup (bs : List BudgetDoc) (m : String) (a : ℚ) (now : DateTime)
    (h : (bs.map BudgetDoc.month).Nodup) :
    ((upsertBudget bs m a now).map BudgetDoc.month).Nodup := by
  rw [upsertBudget_months]
  split
  · exact h
  · next hany =>
    rw [List.nodup_append]
    refine ⟨h, List.nodup_singleton m, fun x hx hm => ?_⟩
    simp only [List.mem_singleton] at hm
    subst hm
    simp only [List.mem_map] at hx
    obtain ⟨b, hb, hbm⟩ := hx
    exact hany (List.any_eq_true.mpr ⟨b, hb, by simpa using hbm⟩)

theorem upsertBudget_unique (bs : List BudgetDoc) (m : String) (a : ℚ) (now : DateTime)
    (h : (bs.map BudgetDoc.month).Nodup) :
    ∀ b ∈ upsertBudget bs m a now, b.month = m → b = ⟨m, a, some now⟩ := by
  induction bs with
  | nil => simp [upsertBudget]
  | cons hd tl ih =>
    intro b hb hbm
    by_cases hh : hd.month = m
    · simp only [upsertBudget, if_pos hh, List.mem_cons] at hb
      rcases hb with rfl | hb
      · rfl
      · exfalso
        have : m ∈ tl.map BudgetDoc.month := List.mem_map.mpr ⟨b, hb, hbm⟩
        rw [List.map_cons, List.nodup_cons] at h
        exact h.1 (hh ▸ this)
    · simp only [upsertBudget, if_neg hh, List.mem_cons] at hb
      rcases hb with rfl | hb
      · exact absurd hbm hh
      · exact ih (by rw [List.map_cons, List.nodup_cons] at h; exact h.2) b hb hbm

/-- C8: both budget-writing operations preserve the at-most-one-document-per-
month invariant, and two `set_budget` calls for the same month leave exactly
the second amount retrievable (the upsert fully replaces the prior amount). -/
theorem budget_upsert_invariant (bs : List BudgetDoc) (h : (bs.map BudgetDoc.month).Nodup) :
    (∀ m a now, (((set_budget bs m a now).1).map BudgetDoc.month).Nodup) ∧
    (∀ profiles cur target cats now,
      (((complete_onboarding profiles bs cur target cats now).2.1).map BudgetDoc.month).Nodup) ∧
    (∀ m a1 a2 now1 now2, m ≠ "" →
      budgetFind (set_budget (set_budget bs (some m) a1 now1).1 (some m) a2 now2).1 m =
        some ⟨m, a2, some now2⟩ ∧
      ∀ b ∈ (set_budget (set_budget bs (some m) a1 now1).1 (some m) a2 now2).1,
        b.month = m → b = ⟨m, a2, some now2⟩) := by
  refine ⟨fun m a now => upsertBudget_nodup _ _ _ _ h,
    fun profiles cur target cats now => upsertBudget_nodup _ _ _ _ h,
    fun m a1 a2 now1 now2 hm => ?_⟩
  have hkey : monthKeyOf (some m) now1 = m := by simp [monthKeyOf, hm]
  have hkey2 : monthKeyOf (some m) now2 = m := by simp [monthKeyOf, hm]
  simp only [set_budget, hkey, hkey2]
  exact ⟨budgetFind_upsert_self _ _ _ _,
    upsertBudget_unique _ _ _ _ (upsertBudget_nodup _ _ _ _ h)⟩

/-- Witness for C8 at a concrete store. -/
theorem budget_upsert_invariant_witness :
    (([bud0].map BudgetDoc.month).Nodup) ∧
    ((((set_budget [bud0] (some "2024-06") 300 now0).1).map BudgetDoc.month).Nodup) ∧
    budgetFind (set_budget (set_budget [bud0] (some "2024-05") 5 now0).1 (some "2024-05") 7
        now0).1 "2024-05" = some ⟨"2024-05", 7, some now0⟩ := by
  have h := budget_upsert_invariant [bud0] (by decide)
  exact ⟨by decide, h.1 (some "2024-06") 300 now0,
    (h.2.2 "2024-05" 5 7 now0 now0 (by decide)).1⟩

/-! ## get_summary inversion -/

theorem get_summary_inv (txs : List Tx) (budgets : List BudgetDoc)
    (profiles : List ProfileDoc) (m : Option String) (now : DateTime) (res : SummaryResult)
    (h : get_summary txs budgets profiles m now = some res) :
    ∃ start, strptimeYMD (monthKeyOf m now ++ "-01") = some start ∧
      res = { balance := round2 (incomeOf txs - expenseOf txs),
              income := round2 (incomeOf txs),
              expense := round2 (expenseOf txs),
              month := monthKeyOf m now,
              month_spend := round2 (monthSpendRaw txs start (monthEndOf start)),
              budget := budgetAmt budgets (monthKeyOf m now),
              progress := if budgetAmt budgets (monthKeyOf m now) ≠ 0 then
                  monthSpendRaw txs start (monthEndOf start) /
                    budgetAmt budgets (monthKeyOf m now)
                else 0,
              currency := currencyOf profiles,
              recent := (sortDesc txs).take 10 } := by
  unfold get_summary at h
  dsimp only at h
  cases hp : strptimeYMD (monthKeyOf m now ++ "-01") with
  | none => rw [hp] at h; exact absurd h (by simp)
  | some start =>
    rw [hp] at h
    refine ⟨start, rfl, ?_⟩
    injection h with h
    exact h.symm

/-! ## C2 -/

/-- C2: `get_summary` returns the exact unrounded quotient `monthSpend /
budgetAmount` whenever a budget document with nonzero amount exists for the
month key of the result, and returns `0` when no budget document exists or its
amount is `0`; the guard means the division is only taken with a nonzero
divisor. -/
theorem get_summary_progress_ratio (txs : List Tx) (budgets : List BudgetDoc)
    (profiles : List ProfileDoc) (m : Option String) (now : DateTime) (res : SummaryResult)
    (h : get_summary txs budgets profiles m now = some res) :
    (budgetFind budgets res.month = none → res.progress = 0) ∧
    (∀ b, budgetFind budgets res.month = some b → b.amount = 0 → res.progress = 0) ∧
    (∀ b, budgetFind budgets res.month = some b → b.amount ≠ 0 →
      res.progress = monthSpendKey txs res.month / b.amount) := by
  obtain ⟨start, hp, hres⟩ := get_summary_inv txs budgets profiles m now res h
  subst hres
  refine ⟨fun hn => ?_, fun b hb h0 => ?_, fun b hb h0 => ?_⟩
  · simp [budgetAmt, hn]
  · simp only [budgetAmt] at *
    rw [hb]
    simp [h0]
  · simp only [budgetAmt, monthSpendKey] at *
    rw [hb, hp]
    simp [h0]

theorem round2_zero : round2 0 = 0 := by
  unfold round2 pyRoundInt
  norm_num

/-- Witness for C2 at a concrete store. -/
theorem get_summary_progress_ratio_witness :
    get_summary [] [bud0] [] (some "2024-05") now0 = some sumResB ∧
    budgetFind [bud0] sumResB.month = some bud0 ∧ bud0.amount ≠ 0 ∧
    sumResB.progress = monthSpendKey [] sumResB.month / bud0.amount := by
  have hEq : get_summary [] [bud0] [] (some "2024-05") now0 = some sumResB := by
    unfold get_summary
    dsimp only
    rw [show strptimeYMD (monthKeyOf (some "2024-05") now0 ++ "-01") =
      some (⟨2024, 5, 1, 0⟩ : DateTime) from by decide]
    simp [incomeOf, expenseOf, monthSpendRaw, monthTxsOf, budgetAmt, budgetFind, bud0,
      currencyOf, sortDesc, sumResB, round2_zero, monthKeyOf]
  have h := get_summary_progress_ratio [] [bud0] [] (some "2024-05") now0 sumResB hEq
  refine ⟨hEq, by simp [budgetFind, bud0, sumResB], by norm_num [bud0], ?_⟩
  exact h.2.2 bud0 (by simp [budgetFind, bud0, sumResB]) (by norm_num [bud0])

/-! ## C5 -/

/-- C5: in every summary, `balance`, `income`, `expense` and `month_spend` are
the two-decimal roundings of the raw values, while `budget` is the raw amount
read from the budget document and `progress` the raw quotient, both unrounded. -/
theorem get_summary_rounding_fields (txs : List Tx) (budgets : List BudgetDoc)
    (profiles : List ProfileDoc) (m : Option String) (now : DateTime) (res : SummaryResult)
    (h : get_summary txs budgets profiles m now = some res) :
    res.balance = round2 (incomeOf txs - expenseOf txs) ∧
    res.income = round2 (incomeOf txs) ∧
    res.expense = round2 (expenseOf txs) ∧
    res.month_spend = round2 (monthSpendKey txs res.month) ∧
    res.budget = budgetAmt budgets res.month ∧
    (∀ b, budgetFind budgets res.month = some b → res.budget = b.amount) ∧
    res.progress = (if res.budget ≠ 0 then monthSpendKey txs res.month / res.budget else 0) := by
  obtain ⟨start, hp, hres⟩ := get_summary_inv txs budgets profiles m now res h
  subst hres
  refine ⟨rfl, rfl, rfl, ?_, rfl, fun b hb => ?_, ?_⟩
  · simp [monthSpendKey, hp]
  · simp [budgetAmt, hb]
  · simp [monthSpendKey, hp]

/-- Witness for C5 at a concrete store whose budget amount is not representable
with two decimals (so rounding it would change it). -/
theorem get_summary_rounding_fields_witness :
    get_summary [] [budThird] [] (some "2024-05") now0 = some sumResT ∧
    sumResT.budget = budThird.amount ∧
    sumResT.balance = round2 (incomeOf [] - expenseOf []) ∧
    sumResT.progress =
      (if sumResT.budget ≠ 0 then monthSpendKey [] sumResT.month / sumResT.budget else 0) := by
  have hne : (100 / 3 : ℚ) ≠ 0 := by norm_num
  have hEq : get_summary [] [budThird] [] (some "2024-05") now0 = some sumResT := by
    unfold get_summary
    dsimp only
    rw [show strptimeYMD (monthKeyOf (some "2024-05") now0 ++ "-01") =
      some (⟨2024, 5, 1, 0⟩ : DateTime) from by decide]
    simp [incomeOf, expenseOf, monthSpendRaw, monthTxsOf, budgetAmt, budgetFind, budThird,
      currencyOf, sortDesc, sumResT, round2_zero, monthKeyOf, hne]
  have h := get_summary_rounding_fields [] [budThird] [] (some "2024-05") now0 sumResT hEq
  exact ⟨hEq, h.2.2.2.2.2.1 budThird (by simp [budgetFind, budThird, sumResT]), h.1,
    h.2.2.2.2.2.2⟩

/-! ## C4 -/

/-- C4 counterexample: `"2024-5"` is not a strictly formatted
four-digit-year dash two-digit-month key, yet `get_summary` accepts it (the
`strptime` regex allows one-digit months) and silently uses it as the month. -/
theorem get_summary_lenient_month_cex :
    strictMonthFormat "2024-5" = false ∧
    (get_summary [] [] [] (some "2024-5") now0).isSome = true := by
  constructor
  · decide
  · unfold get_summary
    dsimp only
    rw [show strptimeYMD (monthKeyOf (some "2024-5") now0 ++ "-01") =
      some (⟨2024, 5, 1, 0⟩ : DateTime) from by decide]
    rfl

/-- C4 amended: for a non-empty month argument, `get_summary` succeeds exactly
when Python's `%Y-%m-%d` parse accepts `month ++ "-01"` (the year must be
exactly four digits, but a non-canonical one-digit month such as `"2024-5"`
is admitted), and any accepted month string is used verbatim as the month
key; a string the parse rejects makes the operation fail. An empty month
string is treated as absent (the current month is used). -/
theorem get_summary_month_parse (txs : List Tx) (budgets : List BudgetDoc)
    (profiles : List ProfileDoc) (s : String) (now : DateTime) (hs : s ≠ "") :
    ((get_summary txs budgets profiles (some s) now).isSome ↔
      (strptimeYMD (s ++ "-01")).isSome) ∧
    (∀ res, get_summary txs budgets profiles (some s) now = some res → res.month = s) := by
  have hkey : monthKeyOf (some s) now = s := by simp [monthKeyOf, hs]
  constructor
  · unfold get_summary
    dsimp only
    rw [hkey]
    cases hp : strptimeYMD (s ++ "-01") <;> simp [hp]
  · intro res h
    obtain ⟨start, hp, hres⟩ := get_summary_inv txs budgets profiles (some s) now res h
    subst hres
    simpa using hkey

/-- Witness for C4 at a concrete month string. -/
theorem get_summary_month_parse_witness :
    ("2024-05" : String) ≠ "" ∧
    ((get_summary [] [] [] (some "2024-05") now0).isSome ↔
      (strptimeYMD ("2024-05" ++ "-01")).isSome) ∧
    sumResE.month = "2024-05" := by
  have h := get_summary_month_parse [] [] [] "2024-05" now0 (by decide)
  refine ⟨by decide, h.1, h.2 sumResE ?_⟩
  unfold get_summary
  dsimp only
  rw [show strptimeYMD (monthKeyOf (some "2024-05") now0 ++ "-01") =
    some (⟨2024, 5, 1, 0⟩ : DateTime) from by decide]
  simp [incomeOf, expenseOf, monthSpendRaw, monthTxsOf, budgetAmt, budgetFind,
    currencyOf, sortDesc, sumResE, round2_zero, monthKeyOf]

/-! ## C6 -/

theorem parseOptDate_inv {o : Option String} {g : Option DateTime}
    (h : parseOptDate o = some g) :
    (o = none ∧ g = none) ∨ (o = some "" ∧ g = none) ∨
    (∃ s d, o = some s ∧ s ≠ "" ∧ strptimeYMD s = some d ∧ g = some d) := by
  rcases o with _ | s
  · simp [parseOptDate, truthy] at h
    exact Or.inl ⟨rfl, h.symm⟩
  · by_cases hs : s = ""
    · subst hs
      simp [parseOptDate, truthy] at h
      exact Or.inr (Or.inl ⟨rfl, h.symm⟩)
    · right; right
      simp only [parseOptDate, truthy, Option.getD_some] at h
      rw [if_pos (by simpa using hs)] at h
      cases hp : strptimeYMD s with
      | none => rw [hp] at h; cases h
      | some d =>
        rw [hp] at h
        injection h with h
        exact ⟨s, d, rfl, hs, hp, h.symm⟩

theorem dateCompGe (o : Option String) (g : Option DateTime) (t : Tx)
    (h : parseOptDate o = some g) :
    qGe g t = effStart o t := by
  rcases parseOptDate_inv h with ⟨rfl, rfl⟩ | ⟨rfl, rfl⟩ | ⟨s, d, rfl, hs, hp, rfl⟩
  · rfl
  · rfl
  · simp [qGe, effStart, hs, hp]

theorem dateCompLt (o : Option String) (g : Option DateTime) (t : Tx)
    (h : parseOptDate o = some g) :
    qLt g t = effEnd o t := by
  rcases parseOptDate_inv h with ⟨rfl, rfl⟩ | ⟨rfl, rfl⟩ | ⟨s, d, rfl, hs, hp, rfl⟩
  · rfl
  · rfl
  · simp [qLt, effEnd, hs, hp]

theorem strFilterComp (o : Option String) (v : String) :
    qStr (if truthy o then o else none) v = effStr o v := by
  rcases o with _ | c
  · rfl
  · by_cases hc : c = "" <;> simp [truthy, qStr, effStr, hc]

/-- C6 amended: the store query built by `list_transactions` is the conjunction
of the supplied bounds where `startDate`, `endDate`, `category` and `type`
constrain only when non-empty (an empty string is treated as omitted, after
Python truthiness) and the amount bounds constrain whenever supplied; when the
limit does not truncate (it is zero, meaning no limit in Mongo, or at least the
match count), the returned list is exactly the matching transactions. -/
theorem list_transactions_filter_semantics (sd ed cat ty : Option String) (mn mx : Option ℚ)
    (q : TxQuery) (hq : buildQuery sd ed cat ty mn mx = some q) :
    (∀ t, q.matchesTx t = effMatch sd ed cat ty mn mx t) ∧
    (∀ txs (limit : Int) out, list_transactions txs sd ed cat ty mn mx limit = some out →
      (limit = 0 ∨ (txs.filter (effMatch sd ed cat ty mn mx)).length ≤ limit.natAbs) →
      out.Perm (txs.filter (effMatch sd ed cat ty mn mx))) := by
  have hpt : ∀ t, q.matchesTx t = effMatch sd ed cat ty mn mx t := by
    intro t
    unfold buildQuery at hq
    cases hS : parseOptDate sd with
    | none => rw [hS] at hq; cases hq
    | some g =>
      cases hE : parseOptDate ed with
      | none => rw [hS, hE] at hq; cases hq
      | some l =>
        rw [hS, hE] at hq
        injection hq with hq
        subst hq
        unfold TxQuery.matchesTx effMatch
        dsimp only
        rw [dateCompGe sd g t hS, dateCompLt ed l t hE,
          strFilterComp cat t.category, strFilterComp ty t.type]
        rfl
  refine ⟨hpt, fun txs limit out hlt hlen => ?_⟩
  unfold list_transactions at hlt
  rw [hq] at hlt
  injection hlt with hlt
  have hfeq : txs.filter q.matchesTx = txs.filter (effMatch sd ed cat ty mn mx) :=
    List.filter_congr fun t _ => hpt t
  subst hlt
  rw [hfeq]
  have hperm := List.perm_insertionSort txGe (txs.filter (effMatch sd ed cat ty mn mx))
  unfold mongoLimit
  split
  · rw [sortDesc]
    exact hperm
  · next hne =>
    rcases hlen with rfl | hlen
    · exact absurd rfl hne
    · rw [sortDesc, List.take_of_length_le (by rw [hperm.length_eq]; exact hlen)]
      exact hperm

/-- C6 counterexample: supplying the (empty-string) category filter, the claim
says only transactions with that exact category are returned, but the code
drops the falsy filter and returns a transaction of a different category. -/
theorem list_transactions_empty_category_cex :
    list_transactions [txFood] none none (some "") none none none 100 = some [txFood] ∧
    txFood.category ≠ "" := by
  constructor
  · simp [list_transactions, buildQuery, parseOptDate, truthy, TxQuery.matchesTx,
      qGe, qLt, qStr, qGeQ, qLeQ, sortDesc, List.insertionSort, mongoLimit]
  · decide

/-- Witness for C6 at concrete filters. -/
theorem list_transactions_filter_semantics_witness :
    buildQuery none none (some "") none (some 10) (some 50) = some q0 ∧
    q0.matchesTx txFood = effMatch none none (some "") none (some 10) (some 50) txFood ∧
    ([txFood].filter (effMatch none none (some "") none (some 10) (some 50))).length ≤
      (100 : Int).natAbs ∧
    [txFood].Perm ([txFood].filter (effMatch none none (some "") none (some 10) (some 50))) := by
  have hq : buildQuery none none (some "") none (some 10) (some 50) = some q0 := by
    simp [buildQuery, parseOptDate, truthy, q0]
  have h := list_transactions_filter_semantics none none (some "") none (some 10) (some 50)
    q0 hq
  have h1 : (10 : ℚ) ≤ txFood.amount := by norm_num [txFood]
  have h2 : txFood.amount ≤ 50 := by norm_num [txFood]
  have hfl : [txFood].filter (effMatch none none (some "") none (some 10) (some 50)) =
      [txFood] := by
    simp [effMatch, effStart, effEnd, effStr, h1, h2]
  have hft : [txFood].filter q0.matchesTx = [txFood] := by
    simp [TxQuery.matchesTx, q0, qGe, qLt, qStr, qGeQ, qLeQ, h1, h2]
  have hlist : list_transactions [txFood] none none (some "") none (some 10) (some 50) 100 =
      some [txFood] := by
    unfold list_transactions
    rw [hq]
    dsimp only
    rw [hft]
    simp [sortDesc, List.insertionSort, mongoLimit]
  refine ⟨hq, h.1 txFood, by rw [hfl]; norm_num, ?_⟩
  exact h.2 [txFood] 100 [txFood] hlist (Or.inr (by rw [hfl]; norm_num))

/-! ## C7 -/

/-- C7 counterexample: FastAPI accepts `?limit=0`, and Mongo's `limit(0)` means
"no limit", so the code returns every match where the claim ("the returned
list is the most recent `limit` matches") demands the empty list. -/
theorem list_transactions_zero_limit_cex :
    list_transactions [txFood] none none none none none none 0 = some [txFood] ∧
    (sortDesc ([txFood].filter qAll.matchesTx)).take 0 = [] := by
  constructor
  · simp [list_transactions, buildQuery, parseOptDate, truthy, TxQuery.matchesTx,
      qGe, qLt, qStr, qGeQ, qLeQ, sortDesc, List.insertionSort, mongoLimit, qAll]
  · simp

/-- C7 amended: `list_transactions` sorts the matches by date descending and
applies the limit after the sort with Mongo semantics: a nonzero limit caps the
result at the `|limit|` most recent matches, while `limit = 0` means no limit
and every match is returned; with no filters the match set is the whole log;
and a match set within the cap (including the empty set) is returned in full
(as a permutation of the matches) without error. -/
theorem list_transactions_sort_limit (txs : List Tx) (sd ed cat ty : Option String)
    (mn mx : Option ℚ) (limit : Int) (q : TxQuery) (out : List Tx)
    (hq : buildQuery sd ed cat ty mn mx = some q)
    (h : list_transactions txs sd ed cat ty mn mx limit = some out) :
    out = mongoLimit limit (sortDesc (txs.filter q.matchesTx)) ∧
    List.Sorted txGe out ∧
    (limit = 0 → out.Perm (txs.filter q.matchesTx)) ∧
    (limit ≠ 0 → out.length = min limit.natAbs (txs.filter q.matchesTx).length) ∧
    ((sd = none ∧ ed = none ∧ cat = none ∧ ty = none ∧ mn = none ∧ mx = none) →
      txs.filter q.matchesTx = txs) ∧
    ((limit = 0 ∨ (txs.filter q.matchesTx).length ≤ limit.natAbs) →
      out.Perm (txs.filter q.matchesTx)) := by
  unfold list_transactions at h
  rw [hq] at h
  injection h with h
  subst h
  have hperm := List.perm_insertionSort txGe (txs.filter q.matchesTx)
  have hsorted := List.sorted_insertionSort txGe (txs.filter q.matchesTx)
  refine ⟨rfl, ?_, ?_, ?_, ?_, ?_⟩
  · unfold mongoLimit
    split
    · exact hsorted
    · exact hsorted.sublist (List.take_sublist limit.natAbs _)
  · intro h0
    subst h0
    unfold mongoLimit
    rw [if_pos rfl, sortDesc]
    exact hperm
  · intro hne
    unfold mongoLimit
    rw [if_neg hne, sortDesc, List.length_take, hperm.length_eq]
  · rintro ⟨rfl, rfl, rfl, rfl, rfl, rfl⟩
    have hqAll : q = ⟨none, none, none, none, none, none⟩ := by
      simp [buildQuery, parseOptDate, truthy] at hq
      exact hq.symm
    subst hqAll
    exact List.filter_eq_self.mpr fun t _ => rfl
  · intro hlen
    unfold mongoLimit
    split
    · rw [sortDesc]
      exact hperm
    · next hne =>
      rcases hlen with rfl | hlen
      · exact absurd rfl hne
      · rw [sortDesc, List.take_of_length_le (by rw [hperm.length_eq]; exact hlen)]
        exact hperm

/-- Witness for C7 at a concrete store: a nonzero limit smaller than the match
count caps the result, and a zero limit returns every match. -/
theorem list_transactions_sort_limit_witness :
    list_transactions [txFood, txSalary] none none none none none none 1 =
      some [txSalary] ∧
    List.Sorted txGe [txSalary] ∧
    ([txSalary] : List Tx).length =
      min (1 : Int).natAbs ([txFood, txSalary].filter qAll.matchesTx).length ∧
    [txFood, txSalary].filter qAll.matchesTx = [txFood, txSalary] ∧
    list_transactions [txFood, txSalary] none none none none none none 0 =
      some [txSalary, txFood] ∧
    [txSalary, txFood].Perm ([txFood, txSalary].filter qAll.matchesTx) := by
  have hq : buildQuery none none none none none none = some qAll := by
    simp [buildQuery, parseOptDate, truthy, qAll]
  have hft : [txFood, txSalary].filter qAll.matchesTx = [txFood, txSalary] := by
    simp [TxQuery.matchesTx, qAll, qGe, qLt, qStr, qGeQ, qLeQ]
  have hsort : sortDesc [txFood, txSalary] = [txSalary, txFood] := by
    simp [sortDesc, List.insertionSort, List.orderedInsert, txGe, txFood, txSalary,
      dtLE, Nat.blt_eq, Nat.beq_eq, Nat.ble_eq]
  have hlist1 : list_transactions [txFood, txSalary] none none none none none none 1 =
      some [txSalary] := by
    unfold list_transactions
    rw [hq]
    dsimp only
    rw [hft, show mongoLimit 1 (sortDesc [txFood, txSalary]) =
      (sortDesc [txFood, txSalary]).take 1 from by simp [mongoLimit], hsort]
    rfl
  have hlist0 : list_transactions [txFood, txSalary] none none none none none none 0 =
      some [txSalary, txFood] := by
    unfold list_transactions
    rw [hq]
    dsimp only
    rw [hft, show mongoLimit 0 (sortDesc [txFood, txSalary]) =
      sortDesc [txFood, txSalary] from by simp [mongoLimit], hsort]
  have h1 := list_transactions_sort_limit [txFood, txSalary] none none none none none none
    1 qAll [txSalary] hq hlist1
  have h0 := list_transactions_sort_limit [txFood, txSalary] none none none none none none
    0 qAll [txSalary, txFood] hq hlist0
  exact ⟨hlist1, h1.2.1, h1.2.2.2.1 (by norm_num), h1.2.2.2.2.1 ⟨rfl, rfl, rfl, rfl, rfl, rfl⟩,
    hlist0, h0.2.2.1 rfl⟩

/-! ## C3: parser shape lemmas -/

theorem digitVal_le {c : Char} {d : Nat} (h : digitVal c = some d) : d ≤ 9 := by
  unfold digitVal at h
  split_ifs at h <;>
    first
      | exact Option.noConfusion h
      | (injection h with h; omega)

theorem matchMonth_range {cs r : List Char} {m : Nat} (h : matchMonth cs = some (m, r)) :
    1 ≤ m ∧ m ≤ 12 := by
  unfold matchMonth at h
  cases cs with
  | nil => exact Option.noConfusion h
  | cons c rest =>
    dsimp only at h
    cases hc : digitVal c with
    | none => rw [hc] at h; exact Option.noConfusion h
    | some d1 =>
      rw [hc] at h
      dsimp only at h
      have hd1 := digitVal_le hc
      cases rest with
      | nil =>
        dsimp only at h
        split_ifs at h with h1
        simp only [Option.some.injEq, Prod.mk.injEq] at h
        omega
      | cons c2 rest2 =>
        dsimp only at h
        cases hc2 : digitVal c2 with
        | none =>
          rw [hc2] at h
          dsimp only at h
          split_ifs at h with h1
          simp only [Option.some.injEq, Prod.mk.injEq] at h
          omega
        | some d2 =>
          rw [hc2] at h
          dsimp only at h
          have hd2 := digitVal_le hc2
          split_ifs at h with h1 h2 h3
          · simp only [Bool.and_eq_true, decide_eq_true_eq] at h1
            simp only [Option.some.injEq, Prod.mk.injEq] at h
            omega
          · simp only [Bool.and_eq_true, decide_eq_true_eq] at h2
            simp only [Option.some.injEq, Prod.mk.injEq] at h
            omega
          · simp only [Option.some.injEq, Prod.mk.injEq] at h
            omega

theorem matchDay_consume {cs r : List Char} {d : Nat} (h : matchDay cs = some (d, r)) :
    (∃ a, cs = a :: r) ∨ (∃ a b, cs = a :: b :: r) := by
  unfold matchDay at h
  cases cs with
  | nil => exact Option.noConfusion h
  | cons c rest =>
    dsimp only at h
    cases hc : digitVal c with
    | none =>
      rw [hc] at h
      dsimp only at h
      split_ifs at h with hsp
      cases rest with
      | nil => exact Option.noConfusion h
      | cons c2 rest2 =>
        dsimp only at h
        cases hc2 : digitVal c2 with
        | none => rw [hc2] at h; exact Option.noConfusion h
        | some d2 =>
          rw [hc2] at h
          dsimp only at h
          split_ifs at h with h1
          simp only [Option.some.injEq, Prod.mk.injEq] at h
          exact Or.inr ⟨c, c2, by rw [h.2]⟩
    | some d1 =>
      rw [hc] at h
      dsimp only at h
      cases rest with
      | nil =>
        dsimp only at h
        split_ifs at h with h1
        simp only [Option.some.injEq, Prod.mk.injEq] at h
        exact Or.inl ⟨c, by rw [h.2]⟩
      | cons c2 rest2 =>
        dsimp only at h
        cases hc2 : digitVal c2 with
        | none =>
          rw [hc2] at h
          dsimp only at h
          split_ifs at h with h1
          simp only [Option.some.injEq, Prod.mk.injEq] at h
          exact Or.inl ⟨c, by rw [h.2]⟩
        | some d2 =>
          rw [hc2] at h
          dsimp only at h
          split_ifs at h with h1 h2 h3 h4 <;>
            simp only [Option.some.injEq, Prod.mk.injEq] at h
          · exact Or.inr ⟨c, c2, by rw [h.2]⟩
          · exact Or.inr ⟨c, c2, by rw [h.2]⟩
          · exact Or.inr ⟨c, c2, by rw [h.2]⟩
          · exact Or.inl ⟨c, by rw [h.2]⟩

theorem matchYear_suffix {cs r : List Char} {y : Nat} (h : matchYear cs = some (y, r)) :
    r <:+ cs := by
  unfold matchYear at h
  split at h
  · rename_i c1 c2 c3 c4 rest
    split at h
    · simp only [Option.some.injEq, Prod.mk.injEq] at h
      rw [← h.2]
      exact (((List.suffix_cons c4 rest).trans
        (List.suffix_cons c3 (c4 :: rest))).trans
          (List.suffix_cons c2 (c3 :: c4 :: rest))).trans
            (List.suffix_cons c1 (c2 :: c3 :: c4 :: rest))
    · exact Option.noConfusion h
  · exact Option.noConfusion h

theorem matchMonth_suffix {cs r : List Char} {m : Nat} (h : matchMonth cs = some (m, r)) :
    r <:+ cs := by
  unfold matchMonth at h
  cases cs with
  | nil => exact Option.noConfusion h
  | cons c rest =>
    dsimp only at h
    cases hc : digitVal c with
    | none => rw [hc] at h; exact Option.noConfusion h
    | some d1 =>
      rw [hc] at h
      dsimp only at h
      cases rest with
      | nil =>
        dsimp only at h
        split_ifs at h with h1
        simp only [Option.some.injEq, Prod.mk.injEq] at h
        rw [← h.2]
        exact List.nil_suffix
      | cons c2 rest2 =>
        dsimp only at h
        cases hc2 : digitVal c2 with
        | none =>
          rw [hc2] at h
          dsimp only at h
          split_ifs at h with h1
          simp only [Option.some.injEq, Prod.mk.injEq] at h
          rw [← h.2]
          exact List.suffix_cons c (c2 :: rest2)
        | some d2 =>
          rw [hc2] at h
          dsimp only at h
          split_ifs at h with h1 h2 h3 <;>
            simp only [Option.some.injEq, Prod.mk.injEq] at h <;> rw [← h.2]
          · exact (List.suffix_cons c2 rest2).trans (List.suffix_cons c (c2 :: rest2))
          · exact (List.suffix_cons c2 rest2).trans (List.suffix_cons c (c2 :: rest2))
          · exact List.suffix_cons c (c2 :: rest2)

theorem strptime_key_shape {s : String} {d : DateTime}
    (h : strptimeYMD (s ++ "-01") = some d) :
    d.day = 1 ∧ d.time = 0 ∧ 1 ≤ d.month ∧ d.month ≤ 12 := by
  unfold strptimeYMD at h
  have hdata : (s ++ "-01").data = s.data ++ ['-', '0', '1'] := by
    simp [String.data_append]
  rw [hdata] at h
  split at h
  · exact Option.noConfusion h
  · rename_i y r1 hY
    split at h
    · rename_i rX r2
      split at h
      · exact Option.noConfusion h
      · rename_i mo r3 hM
        split at h
        · rename_i rY r4
          split at h
          · exact Option.noConfusion h
          · rename_i dd r5 hD
            split_ifs at h with h5 hok
            subst h5
            simp only [Option.some.injEq] at h
            have hr1s : ('-' :: r2) <:+ s.data ++ ['-', '0', '1'] := matchYear_suffix hY
            have hr3s : ('-' :: r4) <:+ r2 := matchMonth_suffix hM
            have hr4s : r4 <:+ s.data ++ ['-', '0', '1'] :=
              (((List.suffix_cons '-' r4).trans hr3s).trans
                (List.suffix_cons '-' r2)).trans hr1s
            have hcons := matchDay_consume hD
            have hday : dd = 1 := by
              rcases hcons with ⟨a, ha⟩ | ⟨a, b, hab⟩
              · rw [ha] at hr4s hD
                obtain ⟨w, hw⟩ := hr4s
                have heq2 : w ++ [a] = (s.data ++ ['-', '0']) ++ ['1'] := by
                  simpa using hw
                have := (List.append_inj' heq2 (by simp)).2
                injection this with ha1
                subst ha1
                have hone : matchDay ['1'] = some (1, []) := by decide
                rw [hone] at hD
                injection hD with hD
                injection hD with hD hD2
                omega
              · rw [hab] at hr4s hD
                obtain ⟨w, hw⟩ := hr4s
                have heq2 : w ++ [a, b] = (s.data ++ ['-']) ++ ['0', '1'] := by
                  simpa using hw
                have := (List.append_inj' heq2 (by simp)).2
                injection this with ha1 hrest
                injection hrest with hb1
                subst ha1
                subst hb1
                have hone : matchDay ['0', '1'] = some (1, []) := by decide
                rw [hone] at hD
                injection hD with hD
                injection hD with hD hD2
                omega
            have hmo := matchMonth_range hM
            rw [← h]
            exact ⟨hday, rfl, hmo.1, hmo.2⟩
        · exact Option.noConfusion h
    · exact Option.noConfusion h

theorem monthInterval_iff (start d : DateTime) (hsd : start.day = 1) (hst : start.time = 0)
    (hd : 1 ≤ d.day) (hm1 : 1 ≤ d.month) (hm2 : d.month ≤ 12) :
    (dtLE start d && dtLT d (monthEndOf start)) = true ↔
      (d.year = start.year ∧ d.month = start.month) := by
  unfold monthEndOf dtLE dtLT
  split_ifs with h12 <;>
    simp only [Bool.or_eq_true, Bool.and_eq_true, Nat.blt_eq, Nat.beq_eq, Nat.ble_eq] <;>
    omega

theorem round2_intCast (n : ℤ) : round2 (n : ℚ) = (n : ℚ) := by
  unfold round2 pyRoundInt
  have h100 : ((n : ℚ)) * 100 = ((n * 100 : ℤ) : ℚ) := by push_cast; ring
  rw [h100, Int.floor_intCast]
  dsimp only
  rw [show ((n * 100 : ℤ) : ℚ) - ((n * 100 : ℤ) : ℚ) = 0 from by ring]
  rw [if_pos (by norm_num : (0 : ℚ) < 1 / 2)]
  push_cast
  ring

/-! ## C3 -/

/-- C3: for an accepted month key, the month spend of the summary is the
(rounded) sum of the amounts of exactly the `expense` transactions whose date
lies in the half-open interval of that calendar month — equivalently (for
well-formed transaction dates) whose date has that year and month, so dates on
the first day of the next month are excluded; and the interval end rolls
December over to January of the next year. -/
theorem get_summary_month_interval (txs : List Tx) (budgets : List BudgetDoc)
    (profiles : List ProfileDoc) (s : String) (now : DateTime) (res : SummaryResult)
    (start : DateTime) (hs : s ≠ "")
    (hp : strptimeYMD (s ++ "-01") = some start)
    (hvalid : ∀ t ∈ txs, 1 ≤ t.date.day ∧ 1 ≤ t.date.month ∧ t.date.month ≤ 12)
    (h : get_summary txs budgets profiles (some s) now = some res) :
    res.month_spend = round2 (((txs.filter fun t =>
        t.type == "expense" &&
          (t.date.year == start.year && t.date.month == start.month)).map
            fun t => t.amount).sum) ∧
    (start.month = 12 → monthEndOf start = ⟨start.year + 1, 1, 1, 0⟩) ∧
    (start.month ≠ 12 → monthEndOf start = ⟨start.year, start.month + 1, 1, 0⟩) := by
  obtain ⟨start2, hp2, hres⟩ := get_summary_inv txs budgets profiles (some s) now res h
  have hkey : monthKeyOf (some s) now = s := by simp [monthKeyOf, hs]
  rw [hkey, hp] at hp2
  injection hp2 with hp2
  subst hp2
  subst hres
  obtain ⟨hd1, ht0, hm1, hm12⟩ := strptime_key_shape hp
  refine ⟨?_, fun h12 => by simp [monthEndOf, h12], fun h12 => by simp [monthEndOf, h12]⟩
  show round2 (monthSpendRaw txs start (monthEndOf start)) = _
  unfold monthSpendRaw monthTxsOf
  rw [List.filter_filter]
  have hfeq : txs.filter
        (fun a => a.type == "expense" && (dtLE start a.date && dtLT a.date (monthEndOf start))) =
      txs.filter
        (fun t => t.type == "expense" &&
          (t.date.year == start.year && t.date.month == start.month)) := by
    refine List.filter_congr fun t ht => ?_
    rcases hvalid t ht with ⟨h1, h2, h3⟩
    have hiff := monthInterval_iff start t.date hd1 ht0 h1 h2 h3
    have hbool : (dtLE start t.date && dtLT t.date (monthEndOf start)) =
        (t.date.year == start.year && t.date.month == start.month) := by
      rw [Bool.eq_iff_iff, hiff]
      simp [Bool.and_eq_true]
    rw [hbool]
  rw [hfeq]

/-- Witness for C3 at a concrete store with one May-2024 expense. -/
theorem get_summary_month_interval_witness :
    get_summary [txRent] [] [] (some "2024-05") now0 = some sumRes42 ∧
    sumRes42.month_spend = round2 ((([txRent].filter fun t =>
        t.type == "expense" &&
          (t.date.year == (⟨2024, 5, 1, 0⟩ : DateTime).year &&
            t.date.month == (⟨2024, 5, 1, 0⟩ : DateTime).month)).map
              fun t => t.amount).sum) ∧
    ((⟨2024, 5, 1, 0⟩ : DateTime).month ≠ 12 →
      monthEndOf ⟨2024, 5, 1, 0⟩ = ⟨2024, 6, 1, 0⟩) := by
  have e42 : round2 (42 : ℚ) = 42 := by
    have := round2_intCast 42
    push_cast at this
    exact this
  have em42 : round2 (0 - 42 : ℚ) = -42 := by
    have := round2_intCast (-42)
    push_cast at this
    rw [show (0 - 42 : ℚ) = -42 from by norm_num]
    exact this
  have hEq : get_summary [txRent] [] [] (some "2024-05") now0 = some sumRes42 := by
    unfold get_summary
    dsimp only
    rw [show strptimeYMD (monthKeyOf (some "2024-05") now0 ++ "-01") =
      some (⟨2024, 5, 1, 0⟩ : DateTime) from by decide]
    dsimp only
    have e1 : incomeOf [txRent] = 0 := by simp [incomeOf, txRent]
    have e2 : expenseOf [txRent] = 42 := by simp [expenseOf, txRent]
    have e3 : monthSpendRaw [txRent] ⟨2024, 5, 1, 0⟩ (monthEndOf ⟨2024, 5, 1, 0⟩) = 42 := by
      simp [monthSpendRaw, monthTxsOf, monthEndOf, txRent, dtLE, dtLT, Nat.blt_eq,
        Nat.beq_eq, Nat.ble_eq]
    rw [e1, e2, e3, em42, e42]
    simp [budgetAmt, budgetFind, currencyOf, sortDesc, List.insertionSort, sumRes42,
      monthKeyOf, round2_zero]
  have h := get_summary_month_interval [txRent] [] [] "2024-05" now0 sumRes42
    ⟨2024, 5, 1, 0⟩ (by decide) (by decide)
    (by intro t ht; simp only [List.mem_singleton] at ht; subst ht; refine ⟨?_, ?_, ?_⟩ <;> decide)
    hEq
  exact ⟨hEq, h.1, h.2.2⟩
